import Mathlib

/-!
Shallow embedding of the VisionX emergency medical information system
(`src/app.py`, `src/functions.py`): phone / NIN validators, the
allergy/medical-history cleaning helper, the insert-or-update (upsert)
flow over the `patients` table, the lookup flow over `patient_id` with
its `scan_activities` logging, and the form-submission flow of `app.py`.
Strings are modelled through their character lists; Python `str.split`,
`str.strip`, `str.join`, `sorted` and `set` are mirrored by explicit
recursive definitions below.
-/

namespace VisionX

/-- Python `text.split(sep)` on character lists: splitting the empty
string yields `[[]]`, adjacent separators yield empty pieces. -/
def pySplit (sep : Char) : List Char → List (List Char)
  | [] => [[]]
  | c :: rest =>
      if c = sep then [] :: pySplit sep rest
      else
        match pySplit sep rest with
        | [] => [[c]]
        | h :: t => (c :: h) :: t

/-- Drop leading whitespace (Python `lstrip`). -/
def trimL (cs : List Char) : List Char := cs.dropWhile Char.isWhitespace

/-- Drop trailing whitespace (Python `rstrip`). -/
def trimR (cs : List Char) : List Char :=
  (cs.reverse.dropWhile Char.isWhitespace).reverse

/-- Python `entry.strip()`. -/
def pyStrip (cs : List Char) : List Char := trimR (trimL cs)

/-- Lexicographic comparison of character lists by code point, the order
Python `sorted` uses on strings. -/
def lexLe : List Char → List Char → Bool
  | [], _ => true
  | _ :: _, [] => false
  | a :: as, b :: bs => if a < b then true else if a = b then lexLe as bs else false

/-- Python `','.join(pieces)` on character lists. -/
def joinComma : List (List Char) → List Char
  | [] => []
  | [x] => x
  | x :: xs => x ++ ',' :: joinComma xs

/-- Python `sorted` of a duplicate-free collection: insertion sort under
the lexicographic order. -/
def sortEntries (l : List (List Char)) : List (List Char) :=
  List.insertionSort (fun a b => lexLe a b = true) l

/-- The digits remaining after `re.sub(r'\D', '', value)`. -/
def digitsOf (s : String) : List Char := s.toList.filter Char.isDigit

/-- `functions.py` / `app.py` `validate_nin`: `len(nin) == 11 and nin.isdigit()`
(`isdigit` is false on the empty string). -/
def validate_nin (nin : String) : Bool :=
  nin.toList.length == 11 && (!nin.toList.isEmpty && nin.toList.all Char.isDigit)

/-- `functions.py` / `app.py` `validate_phone`: strip non-digits, then
normalize 10-digit, 0-leading 11-digit and 234-leading 13-digit inputs,
returning `none` in every other case. -/
def validate_phone (phone : String) : Option String :=
  let d := digitsOf phone
  if d.length = 10 then some (("+234".toList ++ d).asString)
  else if d.length = 11 ∧ d.take 1 = ['0'] then
    some (("+234".toList ++ d.drop 1).asString)
  else if d.length = 13 ∧ d.take 3 = "234".toList then
    some (('+' :: d).asString)
  else none

/-- `functions.py` / `app.py` `validate_emergency_contact`: textually the
same normalization as `validate_phone`. -/
def validate_emergency_contact (contact : String) : Option String :=
  let d := digitsOf contact
  if d.length = 10 then some (("+234".toList ++ d).asString)
  else if d.length = 11 ∧ d.take 1 = ['0'] then
    some (("+234".toList ++ d.drop 1).asString)
  else if d.length = 13 ∧ d.take 3 = "234".toList then
    some (('+' :: d).asString)
  else none

/-- `functions.py` `validate_phone_and_emergency_contact`: `False` when the
two arguments are equal, `True` otherwise. -/
def validate_phone_and_emergency_contact (phone emergency_contact : String) : Bool :=
  if phone = emergency_contact then false else true

/-- The cleaning pipeline of `dedupe_and_clean` in `insert_or_update_patient`:
split on commas, strip each entry, drop entries blank after stripping,
deduplicate (`set`), sort (`sorted`). -/
def cleanList (text : String) : List (List Char) :=
  sortEntries (((pySplit ',' text.toList).map pyStrip).filter (fun e => e ≠ [])).dedup

/-- `functions.py` / `app.py` `dedupe_and_clean` (helper inside
`insert_or_update_patient`): on falsy (empty) text return `""`, otherwise
rejoin the cleaned, sorted, deduplicated entries with commas. -/
def dedupe_and_clean (text : String) : String :=
  if text = "" then "" else (joinComma (cleanList text)).asString

/-- A row of the `patients` table (the SQLite auto-increment `id` column,
never consulted by the modelled logic, is omitted). -/
structure Patient where
  uuid : String
  name : String
  age : Nat
  nin : String
  phone : String
  emergency_contact : String
  genotype : String
  blood_type : String
  allergies : String
  medical_history : String
  patient_id : String
  qr_link : String
deriving DecidableEq, Repr

/-- The arguments a form submission hands to `insert_or_update_patient`. -/
structure Submission where
  name : String
  age : Nat
  nin : String
  phone : String
  emergency_contact : String
  genotype : String
  blood_type : String
  new_allergies : String
  new_medical_history : String
  patient_id : String
deriving DecidableEq, Repr

/-- The SQL match condition `nin = ? OR phone = ?` of both the SELECT and
the UPDATE inside `insert_or_update_patient`. -/
def matchesB (nin phone : String) (r : Patient) : Bool :=
  r.nin == nin || r.phone == phone

/-- `qr_link = f"https://frequently-beloved-robin.ngrok-free.app/?patient_id=\x7bpatient_id\x7d"`. -/
def qrLinkOf (patient_id : String) : String :=
  "https://frequently-beloved-robin.ngrok-free.app/?patient_id=" ++ patient_id

/-- The effect of the UPDATE statement of `insert_or_update_patient` on one
row: rows satisfying `nin = ? OR phone = ?` get the submitted mutable fields
and the freshly recomputed `qr_link`; other rows are untouched. -/
def updateRow (s : Submission) (r : Patient) : Patient :=
  if matchesB s.nin s.phone r then
    { r with name := s.name, age := s.age, allergies := s.new_allergies,
             medical_history := s.new_medical_history,
             emergency_contact := s.emergency_contact, genotype := s.genotype,
             blood_type := s.blood_type, qr_link := qrLinkOf s.patient_id }
  else r

/-- The row the insert branch of `insert_or_update_patient` writes: a fresh
uuid, the submitted identity and mutable fields with cleaned
allergies/history, the caller-supplied `patient_id`, and the derived link. -/
def newPatient (s : Submission) (freshUuid : String) : Patient :=
  { uuid := freshUuid, name := s.name, age := s.age, nin := s.nin,
    phone := s.phone, emergency_contact := s.emergency_contact,
    genotype := s.genotype, blood_type := s.blood_type,
    allergies := dedupe_and_clean s.new_allergies,
    medical_history := dedupe_and_clean s.new_medical_history,
    patient_id := s.patient_id, qr_link := qrLinkOf s.patient_id }

/-- `functions.py` / `app.py` `insert_or_update_patient` acting on the
`patients` table (a list of rows in rowid order). `fetchone` of the SELECT
is the first matching row; if one exists the UPDATE rewrites every matching
row, otherwise a row is inserted with a fresh uuid (`uuid.uuid4()`,
modelled as the externally supplied `freshUuid`) and cleaned
allergies/history. Returns the new table and the `qr_link` value the
function returns. -/
def insert_or_update_patient (s : Submission) (freshUuid : String)
    (rows : List Patient) : List Patient × String :=
  match rows.find? (matchesB s.nin s.phone) with
  | some _ => (rows.map (updateRow s), qrLinkOf s.patient_id)
  | none => (rows ++ [newPatient s freshUuid], qrLinkOf s.patient_id)

/-- A row of the `scan_activities` table: `patient_uuid` plus the
`DATETIME DEFAULT CURRENT_TIMESTAMP` column (populated by the server on
insert, hence `some`). -/
structure Scan where
  patient_uuid : String
  timestamp : Option Nat
deriving DecidableEq, Repr

/-- `get_patient_by_id`: `SELECT * FROM patients WHERE patient_id = ?`,
`fetchone`. -/
def get_patient_by_id (patient_id : String) (rows : List Patient) : Option Patient :=
  rows.find? (fun r => r.patient_id == patient_id)

/-- `log_scan_activity`: `INSERT INTO scan_activities (patient_uuid) VALUES (?)`;
the timestamp column takes the server clock `now`. -/
def log_scan_activity (patient_uuid : String) (now : Nat)
    (scans : List Scan) : List Scan :=
  scans ++ [{ patient_uuid := patient_uuid, timestamp := some now }]

/-- The lookup flow of `app.py` (`patient_id` present in the query
parameters): fetch the patient; on a hit log a scan activity keyed by the
patient's uuid (`patient[1]`), on a miss change nothing. -/
def resolve (patient_id : String) (now : Nat) (rows : List Patient)
    (scans : List Scan) : Option Patient × List Scan :=
  match get_patient_by_id patient_id rows with
  | none => (none, scans)
  | some p => (some p, log_scan_activity p.uuid now scans)

/-- Python `s[-4:]`: the last four characters, or the whole string when
shorter. -/
def last4 (s : String) : String :=
  (s.toList.drop (s.toList.length - 4)).asString

/-- `app.py`: `patient_id = f"PAT\x7bnin[-4:]\x7d\x7bage\x7d\x7bphone[-4:]\x7d"` with the raw
(unnormalized) phone input. -/
def mkPatientId (nin : String) (age : Nat) (phone : String) : String :=
  "PAT" ++ last4 nin ++ Nat.repr age ++ last4 phone

/-- The `if submitted:` flow of `app.py`: require consent, validate the NIN,
normalize phone and emergency contact (each failure aborts with no write),
then derive the public identifier and call `insert_or_update_patient`.
Returns the possibly updated table and `some qr_link` on an accepted
submission, `none` on a rejection. -/
def submitFlow (consent : Bool) (name : String) (age : Nat)
    (nin phone emergency_contact genotype blood_type allergies medical_history : String)
    (freshUuid : String) (rows : List Patient) : List Patient × Option String :=
  if !consent then (rows, none)
  else if !validate_nin nin then (rows, none)
  else
    match validate_phone phone with
    | none => (rows, none)
    | some phone_number =>
        match validate_emergency_contact emergency_contact with
        | none => (rows, none)
        | some emergency_contact_number =>
            let pid := mkPatientId nin age phone
            let res := insert_or_update_patient
              { name := name, age := age, nin := nin, phone := phone_number,
                emergency_contact := emergency_contact_number,
                genotype := genotype, blood_type := blood_type,
                new_allergies := allergies, new_medical_history := medical_history,
                patient_id := pid } freshUuid rows
            (res.1, some res.2)

/-- The invariant claimed of stored allergy / medical-history strings: the
comma-separated entries contain no entry blank after stripping and no
duplicates (the empty string, meaning an empty list, satisfies it). -/
def cleanEntries (s : String) : Prop :=
  s = "" ∨ ((∀ e ∈ pySplit ',' s.toList, pyStrip e ≠ []) ∧ (pySplit ',' s.toList).Nodup)

instance (s : String) : Decidable (cleanEntries s) := by
  unfold cleanEntries; infer_instance

/-- The phone normalizer exactly as the spec sentence words it: 10 digits
get the country code prepended; 11 digits starting with the trunk `0` get
the country code prepended to the **last 10** digits; 13 digits starting
with `234` get a leading `+`; every other case is the failure signal. -/
def specPhone (s : String) : Option String :=
  let d := digitsOf s
  if d.length = 10 then some (("+234".toList ++ d).asString)
  else if d.length = 11 ∧ d.take 1 = ['0'] then
    some (("+234".toList ++ d.drop (d.length - 10)).asString)
  else if d.length = 13 ∧ d.take 3 = "234".toList then
    some (('+' :: d).asString)
  else none

/-- The cleaning function as the spec sentence words it: the comma-join of
the lexicographically sorted, deduplicated set of whitespace-trimmed,
non-empty comma-separated entries (with no special-casing of empty input). -/
def specCleanedText (t : String) : String :=
  (joinComma (sortEntries (((pySplit ',' t.toList).map pyStrip).filter
    (fun e => e ≠ [])).dedup)).asString

/-- Fixture: a first submission (fields in declaration order: name, age,
nin, phone, emergency contact, genotype, blood type, allergies, history,
patient id). -/
def sub1 : Submission :=
  ⟨"Ada Obi", 29, "12345678901", "+2348012345678", "+2348098765432",
   "AA", "O+", "Penicillin", "", "PAT8901295678"⟩

/-- Fixture: a second submission with the same nin and phone as `sub1` but
different mutable fields. -/
def sub2 : Submission :=
  ⟨"Ada O.", 30, "12345678901", "+2348012345678", "+2348098765431",
   "AS", "A+", "Dust", "Asthma", "PAT8901305678"⟩

/-- Fixture for the cleaning-invariant counterexample: first submission. -/
def subC2a : Submission :=
  ⟨"Bob", 40, "22345678901", "+2348022345678", "+2348098765432",
   "AA", "O+", "a", "", "PATC2"⟩

/-- Fixture: same nin and phone as `subC2a`, allergy text with a literal
duplicate entry. -/
def subC2b : Submission :=
  ⟨"Bob", 40, "22345678901", "+2348022345678", "+2348098765432",
   "AA", "O+", "Penicillin,Penicillin", "", "PATC2"⟩

/-- Fixture for the frame counterexample: created under nin
`11111111111` with public identifier `PATA`. -/
def sub3a : Submission :=
  ⟨"Cora", 50, "11111111111", "+2348033345678", "+2348098765432",
   "AA", "O+", "", "", "PATA"⟩

/-- Fixture: different nin but the same phone as `sub3a` (matches on the
other field) and a different caller-supplied public identifier `PATB`. -/
def sub3b : Submission :=
  ⟨"Cora", 50, "33333333333", "+2348033345678", "+2348098765432",
   "AA", "O+", "", "", "PATB"⟩

/-- Fixture: the submission the flow builds when phone and emergency
contact are both the raw input `08012345678`. -/
def subC4 : Submission :=
  ⟨"Ada Obi", 29, "12345678901", "+2348012345678", "+2348012345678",
   "AA", "O+", "", "", "PAT8901295678"⟩

/-- Fixture: a stored patient row with public identifier `PATX`. -/
def demoPatient : Patient :=
  ⟨"uuid-1", "Ada Obi", 29, "12345678901", "+2348012345678",
   "+2348098765432", "AA", "O+", "", "", "PATX", qrLinkOf "PATX"⟩

example : dedupe_and_clean "Peanuts, peanuts ,Dust" = "Dust,Peanuts,peanuts" := by decide
example : dedupe_and_clean "a,a" = "a" := by decide
example : dedupe_and_clean " , " = "" := by decide
example : validate_phone "08012345678" = some "+2348012345678" := by decide
example : validate_phone "+2348012345678" = some "+2348012345678" := by decide
example : validate_phone "8012345678" = some "+2348012345678" := by decide
example : validate_phone "8012345" = none := by decide
example : validate_nin "12345678901" = true := by decide
example : validate_nin "1234" = false := by decide
example : validate_nin "1234567890a" = false := by decide

/-! ### String-level lemmas about the cleaning pipeline -/

lemma toList_asString (l : List Char) : (List.asString l).toList = l := rfl

lemma dropWhile_idem {α : Type} (p : α → Bool) :
    ∀ l : List α, (l.dropWhile p).dropWhile p = l.dropWhile p
  | [] => rfl
  | c :: t => by
      by_cases h : p c = true
      · simp only [List.dropWhile_cons, h, if_true]
        exact dropWhile_idem p t
      · simp [List.dropWhile_cons, h]

lemma exists_append_dropWhile {α : Type} (p : α → Bool) :
    ∀ l : List α, ∃ t, t ++ l.dropWhile p = l
  | [] => ⟨[], rfl⟩
  | c :: r => by
      by_cases h : p c = true
      · obtain ⟨t, ht⟩ := exists_append_dropWhile p r
        exact ⟨c :: t, by simp only [List.dropWhile_cons, h, if_true, List.cons_append, ht]⟩
      · exact ⟨[], by simp [List.dropWhile_cons, h]⟩

lemma trimR_prefix (y : List Char) : ∃ t, trimR y ++ t = y := by
  obtain ⟨s, hs⟩ := exists_append_dropWhile Char.isWhitespace y.reverse
  refine ⟨s.reverse, ?_⟩
  have := congrArg List.reverse hs
  simpa [trimR, List.reverse_append] using this

lemma dropWhile_cons_eq_self {α : Type} {p : α → Bool} {c : α} {w : List α}
    (h : (c :: w).dropWhile p = c :: w) : p c = false := by
  by_cases hc : p c = true
  · rw [List.dropWhile_cons, if_pos hc] at h
    have hlen : (w.dropWhile p).length ≤ w.length := (List.dropWhile_sublist _).length_le
    rw [h] at hlen
    simp at hlen
  · simpa using hc

lemma trimL_trimR {y : List Char} (h : trimL y = y) : trimL (trimR y) = trimR y := by
  cases htr : trimR y with
  | nil => simp [trimL]
  | cons c z =>
      obtain ⟨t, ht⟩ := trimR_prefix y
      rw [htr] at ht
      have hy : y = c :: (z ++ t) := by rw [← ht]; rfl
      have hc : Char.isWhitespace c = false := by
        apply dropWhile_cons_eq_self (w := z ++ t)
        have := h
        rw [hy] at this
        exact this
      simp [trimL, List.dropWhile_cons, hc]

lemma trimL_idem (y : List Char) : trimL (trimL y) = trimL y :=
  dropWhile_idem _ y

lemma trimR_idem (y : List Char) : trimR (trimR y) = trimR y := by
  simp [trimR, List.reverse_reverse, dropWhile_idem]

lemma pyStrip_idem (cs : List Char) : pyStrip (pyStrip cs) = pyStrip cs := by
  unfold pyStrip
  rw [trimL_trimR (trimL_idem cs), trimR_idem]

lemma mem_pyStrip {x : Char} {cs : List Char} (h : x ∈ pyStrip cs) : x ∈ cs := by
  unfold pyStrip trimR trimL at h
  rw [List.mem_reverse] at h
  have h1 := (List.dropWhile_sublist _ (l := (cs.dropWhile Char.isWhitespace).reverse)).subset h
  rw [List.mem_reverse] at h1
  exact (List.dropWhile_sublist _ (l := cs)).subset h1

lemma pySplit_nil (sep : Char) : pySplit sep [] = [[]] := rfl

lemma pySplit_cons (sep c : Char) (rest : List Char) :
    pySplit sep (c :: rest) =
      if c = sep then [] :: pySplit sep rest
      else
        match pySplit sep rest with
        | [] => [[c]]
        | h :: t => (c :: h) :: t := rfl

lemma pySplit_ne_nil (sep : Char) (cs : List Char) : pySplit sep cs ≠ [] := by
  cases cs with
  | nil => simp [pySplit_nil]
  | cons c rest =>
      rw [pySplit_cons]
      by_cases h : c = sep
      · simp [h]
      · rw [if_neg h]
        cases hr : pySplit sep rest <;> simp

lemma sep_not_mem_of_mem_pySplit (sep : Char) :
    ∀ (cs : List Char), ∀ e ∈ pySplit sep cs, sep ∉ e := by
  intro cs
  induction cs with
  | nil =>
      intro e he
      rw [pySplit_nil, List.mem_singleton] at he
      subst he; simp
  | cons c rest ih =>
      intro e he
      rw [pySplit_cons] at he
      by_cases h : c = sep
      · rw [if_pos h] at he
        rcases List.mem_cons.mp he with h1 | h2
        · subst h1; simp
        · exact ih e h2
      · rw [if_neg h] at he
        cases hr : pySplit sep rest with
        | nil => exact absurd hr (pySplit_ne_nil sep rest)
        | cons hd tl =>
            rw [hr] at he
            rcases List.mem_cons.mp he with h1 | h2
            · subst h1
              intro hmem
              rcases List.mem_cons.mp hmem with h3 | h4
              · exact h h3.symm
              · exact ih hd (hr ▸ List.mem_cons_self hd tl) h4
            · exact ih e (hr ▸ List.mem_cons_of_mem hd h2)

lemma pySplit_no_sep {sep : Char} : ∀ {cs : List Char}, sep ∉ cs → pySplit sep cs = [cs]
  | [], _ => rfl
  | c :: rest, h => by
      have hc : c ≠ sep := fun hcs => h (hcs ▸ List.mem_cons_self c rest)
      have hrest : sep ∉ rest := fun hm => h (List.mem_cons_of_mem c hm)
      rw [pySplit_cons, if_neg hc, pySplit_no_sep hrest]

lemma pySplit_append_sep {sep : Char} :
    ∀ {x : List Char} (rest : List Char), sep ∉ x →
      pySplit sep (x ++ sep :: rest) = x :: pySplit sep rest
  | [], rest, _ => by rw [List.nil_append, pySplit_cons, if_pos rfl]
  | c :: x', rest, h => by
      have hc : c ≠ sep := fun hcs => h (hcs ▸ List.mem_cons_self c x')
      have hx : sep ∉ x' := fun hm => h (List.mem_cons_of_mem c hm)
      rw [List.cons_append, pySplit_cons, if_neg hc, pySplit_append_sep rest hx]

lemma joinComma_single (x : List Char) : joinComma [x] = x := rfl

lemma joinComma_cons_cons (x y : List Char) (L : List (List Char)) :
    joinComma (x :: y :: L) = x ++ ',' :: joinComma (y :: L) := rfl

lemma pySplit_joinComma :
    ∀ {L : List (List Char)}, L ≠ [] → (∀ e ∈ L, ',' ∉ e) →
      pySplit ',' (joinComma L) = L
  | [], hne, _ => absurd rfl hne
  | [x], _, h => by
      rw [joinComma_single, pySplit_no_sep (h x (List.mem_singleton_self x))]
  | x :: y :: L'', _, h => by
      rw [joinComma_cons_cons, pySplit_append_sep _ (h x (List.mem_cons_self _ _)),
        pySplit_joinComma (List.cons_ne_nil y L'')
          (fun e he => h e (List.mem_cons_of_mem x he))]

lemma mem_cleanList {t : String} {e : List Char} (he : e ∈ cleanList t) :
    (∃ e₀ ∈ pySplit ',' t.toList, e = pyStrip e₀) ∧ e ≠ [] := by
  unfold cleanList sortEntries at he
  rw [List.mem_insertionSort, List.mem_dedup, List.mem_filter] at he
  obtain ⟨hmem, hne⟩ := he
  rw [List.mem_map] at hmem
  obtain ⟨e₀, he₀, heq⟩ := hmem
  exact ⟨⟨e₀, he₀, heq.symm⟩, by simpa using hne⟩

lemma cleanList_sep_free {t : String} : ∀ e ∈ cleanList t, ',' ∉ e := by
  intro e he hmem
  obtain ⟨⟨e₀, he₀, heq⟩, _⟩ := mem_cleanList he
  exact sep_not_mem_of_mem_pySplit ',' t.toList e₀ he₀ (mem_pyStrip (heq ▸ hmem))

lemma cleanList_nodup (t : String) : (cleanList t).Nodup := by
  unfold cleanList sortEntries
  exact (List.perm_insertionSort _ _).nodup_iff.mpr (List.nodup_dedup _)

/-- The cleaning helper always produces a string whose comma-separated
entries are pairwise distinct and non-blank after stripping. -/
theorem cleanEntries_dedupe_and_clean (t : String) : cleanEntries (dedupe_and_clean t) := by
  by_cases ht : t = ""
  · left; simp [dedupe_and_clean, ht]
  · rw [dedupe_and_clean, if_neg ht]
    cases hL : cleanList t with
    | nil => left; rfl
    | cons h0 L0 =>
        right
        have hne : cleanList t ≠ [] := by rw [hL]; simp
        have hsplit : pySplit ',' ((joinComma (cleanList t)).asString).toList = cleanList t := by
          rw [toList_asString]
          exact pySplit_joinComma hne cleanList_sep_free
        rw [hL] at hsplit
        constructor
        · intro e he
          rw [hsplit, ← hL] at he
          obtain ⟨⟨e₀, _, heq⟩, hne'⟩ := mem_cleanList he
          rw [heq, pyStrip_idem, ← heq]
          exact hne'
        · rw [hsplit, ← hL]
          exact cleanList_nodup t

lemma find?_append_none {α : Type} {p : α → Bool} {l₁ : List α} (l₂ : List α)
    (h : l₁.find? p = none) : (l₁ ++ l₂).find? p = l₂.find? p := by
  induction l₁ with
  | nil => rfl
  | cons a t ih =>
      by_cases hpa : p a = true
      · rw [List.find?_cons_of_pos _ hpa] at h; exact absurd h (by simp)
      · rw [List.find?_cons_of_neg _ hpa] at h
        rw [List.cons_append, List.find?_cons_of_neg _ hpa]
        exact ih h

/-! ### Claim theorems -/

/-- C5: for every input string, `validate_phone` strips all non-digit
characters and then returns `+234` plus the 10 digits, `+234` plus the
last 10 of 11 zero-led digits, `+` plus 13 digits led by `234`, and the
failure signal `none` in every other case — exactly the spec-worded
normalizer `specPhone`. -/
theorem validate_phone_matches_spec (s : String) : validate_phone s = specPhone s := by
  unfold validate_phone specPhone
  by_cases h10 : (digitsOf s).length = 10
  · simp [h10]
  · by_cases h11 : (digitsOf s).length = 11 ∧ (digitsOf s).take 1 = ['0']
    · rw [if_neg h10, if_neg h10, if_pos h11, if_pos h11, h11.1]
    · simp [h10, h11]

/-- C9: `validate_nin` is true iff the input is exactly 11 characters and
every character is a decimal digit; `"12345678901"` validates while
`"1234"` and `"1234567890a"` do not. -/
theorem validate_nin_iff :
    (∀ s : String, validate_nin s = true ↔
      (s.toList.length = 11 ∧ ∀ c ∈ s.toList, c.isDigit = true)) ∧
    validate_nin "12345678901" = true ∧
    validate_nin "1234" = false ∧
    validate_nin "1234567890a" = false := by
  refine ⟨?_, by decide, by decide, by decide⟩
  intro s
  constructor
  · intro h
    rw [validate_nin, Bool.and_eq_true, Bool.and_eq_true] at h
    exact ⟨by simpa using h.1, by simpa [List.all_eq_true] using h.2.2⟩
  · rintro ⟨h1, h2⟩
    have hne : s.toList ≠ [] := by
      intro hh; rw [hh] at h1; simp at h1
    rw [validate_nin, Bool.and_eq_true, Bool.and_eq_true]
    refine ⟨by simpa using h1, ?_, by simpa [List.all_eq_true] using h2⟩
    simpa [List.isEmpty_iff] using hne

/-- C10: `validate_emergency_contact` and `validate_phone` are
extensionally equal — on every input they return the same normalized
string or the same failure signal. -/
theorem validate_emergency_contact_eq_validate_phone :
    ∀ s : String, validate_emergency_contact s = validate_phone s := fun _ => rfl

/-- C6 counterexample: `dedupe_and_clean` keeps both `Peanuts` and
`peanuts` (dedup is case-sensitive), so the input of the spec's example is
not stored as `"Dust,Peanuts"`. -/
theorem dedupe_and_clean_example_refuted :
    dedupe_and_clean "Peanuts, peanuts ,Dust" ≠ "Dust,Peanuts" := by decide

/-- C6 amended: `dedupe_and_clean` is the comma-join of the
lexicographically sorted, (case-sensitively) deduplicated set of trimmed
non-empty entries, and the spec's example input is stored as
`"Dust,Peanuts,peanuts"`. -/
theorem dedupe_and_clean_matches_spec :
    (∀ t, dedupe_and_clean t = specCleanedText t) ∧
    dedupe_and_clean "Peanuts, peanuts ,Dust" = "Dust,Peanuts,peanuts" := by
  refine ⟨?_, by decide⟩
  intro t
  by_cases ht : t = ""
  · subst ht; decide
  · rw [dedupe_and_clean, if_neg ht]; rfl

/-- C2 counterexample: after inserting a patient and then updating it with
allergy text `"Penicillin,Penicillin"`, the stored allergies string is the
raw text with a duplicated entry — the update branch does not clean. -/
theorem update_branch_stores_uncleaned :
    ((insert_or_update_patient subC2b "u2"
        (insert_or_update_patient subC2a "u1" []).1).1.map Patient.allergies
      = ["Penicillin,Penicillin"]) ∧
    ¬ cleanEntries "Penicillin,Penicillin" := by
  exact ⟨by decide, by decide⟩

/-- C2 amended: the cleaning function always produces a duplicate-free,
blank-free entry list, and the insert branch (the only branch that applies
it) preserves the invariant: if no stored row matches the submission and
all stored rows are clean, all rows after `insert_or_update_patient` are
clean. The update branch stores the caller's raw text and does not
preserve the invariant. -/
theorem insert_branch_preserves_clean_invariant :
    (∀ t, cleanEntries (dedupe_and_clean t)) ∧
    (∀ (s : Submission) (u : String) (rows : List Patient),
      rows.find? (matchesB s.nin s.phone) = none →
      (∀ r ∈ rows, cleanEntries r.allergies ∧ cleanEntries r.medical_history) →
      ∀ r ∈ (insert_or_update_patient s u rows).1,
        cleanEntries r.allergies ∧ cleanEntries r.medical_history) := by
  refine ⟨cleanEntries_dedupe_and_clean, ?_⟩
  intro s u rows hnone hrows r hr
  simp only [insert_or_update_patient, hnone] at hr
  rcases List.mem_append.mp hr with h | h
  · exact hrows r h
  · rw [List.mem_singleton] at h
    subst h
    exact ⟨cleanEntries_dedupe_and_clean _, cleanEntries_dedupe_and_clean _⟩

/-- Witness for the amended C2 theorem at a concrete insert. -/
theorem insert_branch_preserves_clean_invariant_witness :
    cleanEntries "a" ∧ cleanEntries "" :=
  insert_branch_preserves_clean_invariant.2 subC2a "u1" [] rfl (by simp)
    { uuid := "u1", name := "Bob", age := 40, nin := "22345678901",
      phone := "+2348022345678", emergency_contact := "+2348098765432",
      genotype := "AA", blood_type := "O+", allergies := "a",
      medical_history := "", patient_id := "PATC2",
      qr_link := qrLinkOf "PATC2" } (by decide)

/-- C3 counterexample: a row created under public identifier `PATA` is
updated by a submission matching on phone with identifier `PATB`; the
stored link after the update embeds `PATB`, not the creation-time link. -/
theorem update_overwrites_stored_link :
    ((insert_or_update_patient sub3b "u2"
        (insert_or_update_patient sub3a "u1" []).1).1.map Patient.qr_link
      = [qrLinkOf "PATB"]) ∧
    qrLinkOf "PATB" ≠ qrLinkOf "PATA" := by
  exact ⟨by decide, by decide⟩

/-- C3 amended: when a match exists, `insert_or_update_patient` maps
`updateRow` over the table; non-matching rows are untouched, and matched
rows keep uuid, nin, phone and patient_id, take the submitted mutable
fields, and get `qr_link` recomputed from the caller-supplied identifier —
which equals the creation-time link only when that identifier is the
stored one. -/
theorem update_branch_frame
    (s : Submission) (u : String) (rows : List Patient) (p : Patient)
    (hfound : rows.find? (matchesB s.nin s.phone) = some p) :
    (insert_or_update_patient s u rows).1 = rows.map (updateRow s) ∧
    (∀ r : Patient, matchesB s.nin s.phone r = false → updateRow s r = r) ∧
    (∀ r : Patient, matchesB s.nin s.phone r = true →
      (updateRow s r).uuid = r.uuid ∧ (updateRow s r).nin = r.nin ∧
      (updateRow s r).phone = r.phone ∧
      (updateRow s r).patient_id = r.patient_id ∧
      (updateRow s r).qr_link = qrLinkOf s.patient_id ∧
      (updateRow s r).name = s.name ∧ (updateRow s r).age = s.age ∧
      (updateRow s r).allergies = s.new_allergies ∧
      (updateRow s r).medical_history = s.new_medical_history ∧
      (updateRow s r).emergency_contact = s.emergency_contact ∧
      (updateRow s r).genotype = s.genotype ∧
      (updateRow s r).blood_type = s.blood_type ∧
      (r.patient_id = s.patient_id →
        (updateRow s r).qr_link = qrLinkOf r.patient_id)) := by
  refine ⟨by simp [insert_or_update_patient, hfound], ?_, ?_⟩
  · intro r h; simp [updateRow, h]
  · intro r h
    have hu : updateRow s r =
      { r with name := s.name, age := s.age, allergies := s.new_allergies,
               medical_history := s.new_medical_history,
               emergency_contact := s.emergency_contact, genotype := s.genotype,
               blood_type := s.blood_type, qr_link := qrLinkOf s.patient_id } := by
      simp [updateRow, h]
    rw [hu]
    exact ⟨rfl, rfl, rfl, rfl, rfl, rfl, rfl, rfl, rfl, rfl, rfl, rfl,
      fun hpid => by rw [hpid]⟩

/-- Witness for the amended C3 theorem: the concrete update of the
`sub3a`/`sub3b` pair really rewrites the table by `updateRow`. -/
theorem update_branch_frame_witness :
    (insert_or_update_patient sub3b "u2"
        (insert_or_update_patient sub3a "u1" []).1).1
      = ((insert_or_update_patient sub3a "u1" []).1).map (updateRow sub3b) :=
  (update_branch_frame sub3b "u2" (insert_or_update_patient sub3a "u1" []).1
    { uuid := "u1", name := "Cora", age := 50, nin := "11111111111",
      phone := "+2348033345678", emergency_contact := "+2348098765432",
      genotype := "AA", blood_type := "O+", allergies := "",
      medical_history := "", patient_id := "PATA",
      qr_link := qrLinkOf "PATA" } (by decide)).1

lemma updateRow_preserves_match (n ph : String) (s : Submission) (r : Patient) :
    matchesB n ph (updateRow s r) = matchesB n ph r := by
  unfold updateRow
  by_cases h : matchesB s.nin s.phone r = true
  · rw [if_pos h]; rfl
  · rw [if_neg h]

lemma upsert_snd (s : Submission) (u : String) (rows : List Patient) :
    (insert_or_update_patient s u rows).2 = qrLinkOf s.patient_id := by
  unfold insert_or_update_patient
  cases rows.find? (matchesB s.nin s.phone) <;> rfl

lemma upsert_qr_link (s : Submission) (u : String) (rows : List Patient) :
    ∀ r ∈ (insert_or_update_patient s u rows).1,
      matchesB s.nin s.phone r = true → r.qr_link = qrLinkOf s.patient_id := by
  intro r hr hm
  cases hfind : rows.find? (matchesB s.nin s.phone) with
  | none =>
      simp only [insert_or_update_patient, hfind] at hr
      rcases List.mem_append.mp hr with h | h
      · exact absurd hm (List.find?_eq_none.mp hfind r h)
      · rw [List.mem_singleton] at h; subst h; rfl
  | some p =>
      simp only [insert_or_update_patient, hfind] at hr
      obtain ⟨r₀, hr₀, hr₀eq⟩ := List.mem_map.mp hr
      have hm₀ : matchesB s.nin s.phone r₀ = true := by
        rw [← updateRow_preserves_match s.nin s.phone s r₀, hr₀eq]; exact hm
      rw [← hr₀eq]
      simp [updateRow, hm₀]

/-- C1: two submissions with the same nin and phone, starting from a store
with no matching row: the second call finds a match (no second insert, so
the table length is unchanged), exactly one row matches that identity, and
that row carries the second submission's mutable fields. -/
theorem upsert_idempotent_on_identity
    (s1 s2 : Submission) (u1 u2 : String) (rows : List Patient)
    (hnin : s1.nin = s2.nin) (hphone : s1.phone = s2.phone)
    (hfresh : ∀ r ∈ rows, matchesB s1.nin s1.phone r = false) :
    ((insert_or_update_patient s2 u2 (insert_or_update_patient s1 u1 rows).1).1.length
       = (insert_or_update_patient s1 u1 rows).1.length) ∧
    ((insert_or_update_patient s2 u2 (insert_or_update_patient s1 u1 rows).1).1.countP
       (matchesB s2.nin s2.phone) = 1) ∧
    (∀ r ∈ (insert_or_update_patient s2 u2 (insert_or_update_patient s1 u1 rows).1).1,
       matchesB s2.nin s2.phone r = true →
       r.name = s2.name ∧ r.age = s2.age ∧ r.allergies = s2.new_allergies ∧
       r.medical_history = s2.new_medical_history ∧
       r.emergency_contact = s2.emergency_contact ∧ r.genotype = s2.genotype ∧
       r.blood_type = s2.blood_type) := by
  have hmatch2 : ∀ r, matchesB s2.nin s2.phone r = matchesB s1.nin s1.phone r := by
    intro r; rw [← hnin, ← hphone]
  have hfresh2 : ∀ r ∈ rows, matchesB s2.nin s2.phone r = false :=
    fun r hr => (hmatch2 r).trans (hfresh r hr)
  have hnone : rows.find? (matchesB s1.nin s1.phone) = none :=
    List.find?_eq_none.mpr (fun x hx => by simp [hfresh x hx])
  have h1 : (insert_or_update_patient s1 u1 rows).1 = rows ++ [newPatient s1 u1] := by
    simp [insert_or_update_patient, hnone]
  set n1 : Patient := newPatient s1 u1 with hn1
  have hnew : matchesB s2.nin s2.phone n1 = true := by
    rw [hmatch2 n1, hn1]
    simp [matchesB, newPatient]
  have hfind2 : ((rows ++ [n1]).find? (matchesB s2.nin s2.phone)) = some n1 := by
    rw [find?_append_none _ (List.find?_eq_none.mpr
      (fun x hx => by simp [hfresh2 x hx]))]
    rw [List.find?_cons_of_pos _ hnew]
  have h2 : (insert_or_update_patient s2 u2 (rows ++ [n1])).1
      = rows.map (updateRow s2) ++ [updateRow s2 n1] := by
    simp [insert_or_update_patient, hfind2]
  have hmapfix : rows.map (updateRow s2) = rows := by
    have hfix : ∀ r ∈ rows, updateRow s2 r = id r :=
      fun r hr => by simp [updateRow, hfresh2 r hr]
    rw [List.map_congr_left hfix, List.map_id]
  have hupd : matchesB s2.nin s2.phone (updateRow s2 n1) = true := by
    rw [updateRow_preserves_match]; exact hnew
  rw [h1, h2, hmapfix]
  refine ⟨by simp, ?_, ?_⟩
  · rw [List.countP_append]
    have hz : rows.countP (matchesB s2.nin s2.phone) = 0 :=
      List.countP_eq_zero.mpr (fun a ha => by simp [hfresh2 a ha])
    rw [hz]
    simp [List.countP_cons, hupd]
  · intro r hr hm
    rcases List.mem_append.mp hr with h | h
    · exact absurd hm (by simp [hfresh2 r h])
    · rw [List.mem_singleton] at h
      subst h
      simp [updateRow, hnew]

/-- Witness for C1 at the concrete pair `sub1`, `sub2` from the empty
store. -/
theorem upsert_idempotent_on_identity_witness :
    ((insert_or_update_patient sub2 "u2" (insert_or_update_patient sub1 "u1" []).1).1.length
       = (insert_or_update_patient sub1 "u1" []).1.length) ∧
    ((insert_or_update_patient sub2 "u2" (insert_or_update_patient sub1 "u1" []).1).1.countP
       (matchesB sub2.nin sub2.phone) = 1) := by
  have h := upsert_idempotent_on_identity sub1 sub2 "u1" "u2" []
    (by decide) (by decide) (by simp)
  exact ⟨h.1, h.2.1⟩

/-- C4 counterexample: the raw input `08012345678` used for both the phone
and the emergency contact normalizes to the same number, yet the
submission flow accepts it and writes a patient row. -/
theorem flow_accepts_equal_phone_and_contact :
    validate_phone "08012345678" = validate_emergency_contact "08012345678" ∧
    (submitFlow true "Ada Obi" 29 "12345678901" "08012345678" "08012345678"
        "AA" "O+" "" "" "u1" []).1.length = 1 ∧
    (submitFlow true "Ada Obi" 29 "12345678901" "08012345678" "08012345678"
        "AA" "O+" "" "" "u1" []).2 ≠ none := by
  exact ⟨by decide, by decide, by decide⟩

/-- C4 amended: `validate_phone_and_emergency_contact(a, b)` is true iff
`a` and `b` differ, but the submission flow never invokes it: whenever
consent is given and the three field validators pass, the flow proceeds to
the upsert write even when the normalized phone equals the normalized
emergency contact. -/
theorem phone_contact_check_unused :
    (∀ a b : String, validate_phone_and_emergency_contact a b = true ↔ a ≠ b) ∧
    (∀ (name : String) (age : Nat)
       (nin phone emergency_contact genotype blood_type allergies medical_history
         u : String) (rows : List Patient) (pn en : String),
      validate_nin nin = true → validate_phone phone = some pn →
      validate_emergency_contact emergency_contact = some en → pn = en →
      submitFlow true name age nin phone emergency_contact genotype blood_type
          allergies medical_history u rows
        = ((insert_or_update_patient
              { name := name, age := age, nin := nin, phone := pn,
                emergency_contact := en, genotype := genotype,
                blood_type := blood_type, new_allergies := allergies,
                new_medical_history := medical_history,
                patient_id := mkPatientId nin age phone } u rows).1,
           some (insert_or_update_patient
              { name := name, age := age, nin := nin, phone := pn,
                emergency_contact := en, genotype := genotype,
                blood_type := blood_type, new_allergies := allergies,
                new_medical_history := medical_history,
                patient_id := mkPatientId nin age phone } u rows).2)) := by
  constructor
  · intro a b
    by_cases h : a = b <;> simp [validate_phone_and_emergency_contact, h]
  · intro name age nin phone ec genotype blood allergies history u rows pn en
      hnin hp he _
    simp [submitFlow, hnin, hp, he]

/-- Witness for the amended C4 theorem: the concrete rejected-by-the-spec
submission goes through to the upsert. -/
theorem phone_contact_check_unused_witness :
    submitFlow true "Ada Obi" 29 "12345678901" "08012345678" "08012345678"
        "AA" "O+" "" "" "u1" []
      = ((insert_or_update_patient subC4 "u1" []).1,
         some (insert_or_update_patient subC4 "u1" []).2) := by
  have h := phone_contact_check_unused.2 "Ada Obi" 29 "12345678901" "08012345678"
    "08012345678" "AA" "O+" "" "" "u1" [] "+2348012345678" "+2348012345678"
    (by decide) (by decide) (by decide) rfl
  have hsub : subC4 = ⟨"Ada Obi", 29, "12345678901", "+2348012345678",
      "+2348012345678", "AA", "O+", "", "",
      mkPatientId "12345678901" 29 "08012345678"⟩ := by decide
  rw [hsub]
  exact h

/-- C7: a lookup for an identifier with no matching patient returns the
not-found signal and leaves the scan table unchanged; a lookup that finds
a patient returns it and appends exactly one scan row keyed by that
patient's uuid with a non-null server timestamp. -/
theorem resolve_spec (pid : String) (now : Nat) (rows : List Patient)
    (scans : List Scan) :
    ((∀ r ∈ rows, r.patient_id ≠ pid) → resolve pid now rows scans = (none, scans)) ∧
    (∀ p, get_patient_by_id pid rows = some p →
      resolve pid now rows scans
        = (some p, scans ++ [{ patient_uuid := p.uuid, timestamp := some now }]) ∧
      (some now ≠ (none : Option Nat))) := by
  constructor
  · intro h
    have hfind : rows.find? (fun r => r.patient_id == pid) = none :=
      List.find?_eq_none.mpr (fun x hx => by simp [h x hx])
    simp [resolve, get_patient_by_id, hfind]
  · intro p hp
    refine ⟨?_, by simp⟩
    simp [resolve, hp, log_scan_activity]

/-- Witness for C7: a hit on `PATX` logs one scan for `uuid-1`; a miss on
`PATY` logs nothing. -/
theorem resolve_spec_witness :
    resolve "PATX" 5 [demoPatient] []
      = (some demoPatient, [{ patient_uuid := "uuid-1", timestamp := some 5 }]) ∧
    resolve "PATY" 5 [demoPatient] [] = (none, []) := by
  constructor
  · have h := ((resolve_spec "PATX" 5 [demoPatient] []).2 demoPatient (by decide)).1
    simpa [demoPatient] using h
  · exact (resolve_spec "PATY" 5 [demoPatient] []).1 (by decide)

/-- C8: on every accepted submission, the flow returns the link
`https://<fixed-host>/?patient_id=` followed by the public identifier
`PAT` + last 4 characters of the nin + decimal age + last 4 characters of
the raw phone input, and every row matching the submission's identity in
the resulting table stores exactly that link. -/
theorem accepted_submission_identifier_format
    (name : String) (age : Nat)
    (nin phone emergency_contact genotype blood_type allergies medical_history
      u : String) (rows : List Patient) (pn en : String)
    (hnin : validate_nin nin = true) (hp : validate_phone phone = some pn)
    (he : validate_emergency_contact emergency_contact = some en) :
    (submitFlow true name age nin phone emergency_contact genotype blood_type
        allergies medical_history u rows).2
      = some ("https://frequently-beloved-robin.ngrok-free.app/?patient_id="
          ++ ("PAT" ++ last4 nin ++ Nat.repr age ++ last4 phone)) ∧
    (∀ r ∈ (submitFlow true name age nin phone emergency_contact genotype
        blood_type allergies medical_history u rows).1,
      matchesB nin pn r = true →
      r.qr_link = "https://frequently-beloved-robin.ngrok-free.app/?patient_id="
          ++ ("PAT" ++ last4 nin ++ Nat.repr age ++ last4 phone)) := by
  have hflow : submitFlow true name age nin phone emergency_contact genotype
      blood_type allergies medical_history u rows
      = ((insert_or_update_patient
            { name := name, age := age, nin := nin, phone := pn,
              emergency_contact := en, genotype := genotype,
              blood_type := blood_type, new_allergies := allergies,
              new_medical_history := medical_history,
              patient_id := mkPatientId nin age phone } u rows).1,
         some (insert_or_update_patient
            { name := name, age := age, nin := nin, phone := pn,
              emergency_contact := en, genotype := genotype,
              blood_type := blood_type, new_allergies := allergies,
              new_medical_history := medical_history,
              patient_id := mkPatientId nin age phone } u rows).2) := by
    simp [submitFlow, hnin, hp, he]
  rw [hflow]
  constructor
  · rw [upsert_snd]
    rfl
  · intro r hr hm
    have h := upsert_qr_link
      { name := name, age := age, nin := nin, phone := pn,
        emergency_contact := en, genotype := genotype,
        blood_type := blood_type, new_allergies := allergies,
        new_medical_history := medical_history,
        patient_id := mkPatientId nin age phone } u rows r hr hm
    exact h

/-- Witness for C8: a raw phone input with punctuation keeps its raw last
four digits in the identifier. -/
theorem accepted_submission_identifier_format_witness :
    (submitFlow true "Ada Obi" 29 "12345678901" "0801-234-5678" "08098765432"
        "AA" "O+" "" "" "u1" []).2
      = some ("https://frequently-beloved-robin.ngrok-free.app/?patient_id="
          ++ ("PAT" ++ last4 "12345678901" ++ Nat.repr 29 ++ last4 "0801-234-5678")) :=
  (accepted_submission_identifier_format "Ada Obi" 29 "12345678901" "0801-234-5678"
    "08098765432" "AA" "O+" "" "" "u1" [] "+2348012345678" "+2348098765432"
    (by decide) (by decide) (by decide)).1

end VisionX
